import Mathlib

/-!
# MuteNoteOn: the MIDI output path of `SinSynthWithMidi`

A shallow embedding of `src/SinSynthWithMidi.cpp`:

* `MIDIOutputCallbackHelper` (the pending-event vector and the registered
  output callback) with `SetCallbackInfo`, `AddMIDIEvent`, `FireAtTimeStamp`;
* `SinSynthWithMidi` with `SetProperty`, `HandleMidiEvent`, `Render`.

Unsigned machine integers are natural numbers; the one place where the source
does arithmetic on bytes (`item.status + item.channel`, stored in a `Byte`)
is reduced modulo 256. Pointers are natural numbers, `0` being `NULL`.
The framework base classes and the host's output callback are not part of the
repository; they enter as parameters (`AUBase`, the status sequence `cb`).
The recursion of `FireAtTimeStamp` is bounded by a fuel argument: `none`
means the fuel ran out before the call tree completed.
-/

namespace MuteNoteOn

/-! ## Platform types and constants -/

/-- Status code returned by the framework entry points (`OSStatus`). -/
abbrev OSStatus := Int

/-- Time stamp of a render block. `AudioTimeStamp` is only ever passed through
by reference, never inspected, so a token stands for it. -/
abbrev AudioTimeStamp := Nat

/-- The success code `noErr`. -/
def noErr : OSStatus := 0

/-- The error `kAudioUnitErr_InvalidPropertyValue` of the AudioUnit headers. -/
def kAudioUnitErr_InvalidPropertyValue : OSStatus := -10851

/-- The scope `kAudioUnitScope_Global` of the AudioUnit headers. -/
def kAudioUnitScope_Global : Nat := 0

/-- Property id `kAudioUnitProperty_MIDIOutputCallbackInfo`. -/
def kAudioUnitProperty_MIDIOutputCallbackInfo : Nat := 47

/-- Property id `kAudioUnitProperty_MIDIOutputCallback`. -/
def kAudioUnitProperty_MIDIOutputCallback : Nat := 48

/-- Parameter id of the mute switch (`static const ... kGlobalMuteSwitchParam = 0`). -/
def kGlobalMuteSwitchParam : Nat := 0

/-- Size of the wire buffer (`enum { kSizeofMIDIBuffer = 512 }`). -/
def kSizeofMIDIBuffer : Nat := 512

/-! ## Data model -/

/-- One buffered MIDI event (`struct MIDIMessageInfoStruct`). -/
structure MIDIMessageInfoStruct where
  status : Nat
  channel : Nat
  data1 : Nat
  data2 : Nat
  startFrame : Nat
deriving DecidableEq, Repr

/-- One packet of a packet list: its time stamp and its data bytes (the
16-bit `length` field is the length of `data`). -/
structure MIDIPacket where
  timeStamp : Nat
  data : List Nat
deriving DecidableEq, Repr

/-- The packet list held in the wire buffer (`numPackets` is the length of
`packet`). -/
structure MIDIPacketList where
  packet : List MIDIPacket
deriving DecidableEq, Repr

/-- Byte layout of a packet list: the size of the list header and the size of
the fixed part of a packet (time stamp and length field) that precedes its
data bytes. CoreMIDI is not part of the repository, so the two sizes are
parameters. -/
structure PacketListLayout where
  headerSize : Nat
  packetHeaderSize : Nat
deriving DecidableEq, Repr

/-- The layout of the CoreMIDI headers: a 4-byte packet count, and per packet
an 8-byte time stamp and a 2-byte length. -/
def coreMIDILayout : PacketListLayout := ⟨4, 10⟩

/-- Number of bytes one packet occupies in the wire buffer. -/
def MIDIPacket.byteSize (L : PacketListLayout) (p : MIDIPacket) : Nat :=
  L.packetHeaderSize + p.data.length

/-- Number of bytes a packet list occupies in the wire buffer. -/
def MIDIPacketList.byteSize (L : PacketListLayout) (pktlist : MIDIPacketList) : Nat :=
  L.headerSize + (pktlist.packet.map (MIDIPacket.byteSize L)).sum

/-- Modelled from the spec: `MIDIPacketListInit` of CoreMIDI, which is not part
of the repository. It resets the wire buffer to an empty packet list. -/
def MIDIPacketListInit : MIDIPacketList := ⟨[]⟩

/-- Modelled from the spec: `MIDIPacketListAdd` of CoreMIDI, which is not part
of the repository. It appends one packet holding `time` and the first `nData`
bytes of `data` behind the packets already present, and fails (the null
result) when the list would then exceed `listSize` bytes, leaving it as it
was. -/
def MIDIPacketListAdd (L : PacketListLayout) (pktlist : MIDIPacketList) (listSize : Nat)
    (time : Nat) (nData : Nat) (data : List Nat) : Option MIDIPacketList :=
  if pktlist.byteSize L + L.packetHeaderSize + nData ≤ listSize then
    some ⟨pktlist.packet ++ [⟨time, data.take nData⟩]⟩
  else
    none

/-- The registered output callback (`AUMIDIOutputCallbackStruct`): a function
pointer (`0` is `NULL`) and the user-data token. -/
structure AUMIDIOutputCallbackStruct where
  midiOutputCallback : Nat
  userData : Nat
deriving DecidableEq, Repr

/-- State of `class MIDIOutputCallbackHelper`. The wire buffer `mMIDIBuffer` is
re-initialised by every flush and is therefore not part of the state. -/
structure MIDIOutputCallbackHelper where
  mMIDICallbackStruct : AUMIDIOutputCallbackStruct
  mMIDIMessageList : List MIDIMessageInfoStruct
deriving DecidableEq, Repr

/-- One invocation of the output callback:
`(*midiOutputCallback)(userData, &inTimeStamp, 0, pktlist)`. -/
structure CallbackCall where
  midiOutputCallback : Nat
  userData : Nat
  timeStamp : AudioTimeStamp
  flags : Nat
  pktlist : MIDIPacketList
deriving DecidableEq, Repr

/-! ## `MIDIOutputCallbackHelper` -/

/-- The constructor: no callback is registered, nothing is pending. The
user-data member is not initialised by the source, hence the argument. -/
def MIDIOutputCallbackHelper.new (userData : Nat) : MIDIOutputCallbackHelper :=
  ⟨⟨0, userData⟩, []⟩

/-- The method `MIDIOutputCallbackHelper::SetCallbackInfo`. -/
def SetCallbackInfo (h : MIDIOutputCallbackHelper) (callback : Nat) (userData : Nat) :
    MIDIOutputCallbackHelper :=
  { h with mMIDICallbackStruct := ⟨callback, userData⟩ }

/-- The method `MIDIOutputCallbackHelper::AddMIDIEvent`: `push_back` of the new record. -/
def AddMIDIEvent (h : MIDIOutputCallbackHelper) (status channel data1 data2 inStartFrame : Nat) :
    MIDIOutputCallbackHelper :=
  { h with mMIDIMessageList := h.mMIDIMessageList ++ [⟨status, channel, data1, data2, inStartFrame⟩] }

/-- The local `Byte midiStatusByte = item.status + item.channel;` of the loop body. -/
def midiStatusByte (item : MIDIMessageInfoStruct) : Nat :=
  (item.status + item.channel) % 256

/-- The local `UInt32 midiDataCount = ((item.status == 0xC || item.status == 0xD) ? 2 : 3);`
of the loop body. -/
def midiDataCount (item : MIDIMessageInfoStruct) : Nat :=
  if item.status = 0xC ∨ item.status = 0xD then 2 else 3

/-- How the `for` loop of `FireAtTimeStamp` ends: every record was appended
(`done`), or an append failed (`overflow`) with `rest` the records from the
iterator on, the ones `erase (begin, iter)` keeps. -/
inductive LoopExit where
  | done (pktlist : MIDIPacketList)
  | overflow (pktlist : MIDIPacketList) (rest : List MIDIMessageInfoStruct)
deriving DecidableEq, Repr

/-- The `for` loop of `FireAtTimeStamp` over the pending records, started
with the packet list built so far. -/
def packetLoop (L : PacketListLayout) (pktlist : MIDIPacketList) :
    List MIDIMessageInfoStruct → LoopExit
  | [] => .done pktlist
  | item :: rest =>
    match MIDIPacketListAdd L pktlist kSizeofMIDIBuffer item.startFrame (midiDataCount item)
        [midiStatusByte item, item.data1, item.data2] with
    | none => .overflow pktlist (item :: rest)
    | some pktlist1 => packetLoop L pktlist1 rest

/-- What a flush leaves behind: the helper, the callback invocations in the
order they were made, and the status codes reported by
`printf ("error calling output callback: %d", ...)`. -/
structure FireOutput where
  helper : MIDIOutputCallbackHelper
  calls : List CallbackCall
  log : List OSStatus
deriving DecidableEq, Repr

/-- The lines printed for a callback result. -/
def reportResult (result : OSStatus) : List OSStatus :=
  if result ≠ noErr then [result] else []

/-- The method `MIDIOutputCallbackHelper::FireAtTimeStamp`. `cb n` is the status the host
callback returns on its `n`-th invocation of this flush (counted from 0). The
first argument bounds the depth of the recursion. -/
def FireAtTimeStamp (L : PacketListLayout) :
    Nat → MIDIOutputCallbackHelper → AudioTimeStamp → (Nat → OSStatus) → Option FireOutput
  | 0, _, _, _ => none
  | fuel + 1, h, inTimeStamp, cb =>
    if h.mMIDIMessageList.isEmpty then
      some ⟨h, [], []⟩
    else if h.mMIDICallbackStruct.midiOutputCallback ≠ 0 then
      match packetLoop L MIDIPacketListInit h.mMIDIMessageList with
      | .overflow pktlist rest =>
        let call : CallbackCall :=
          ⟨h.mMIDICallbackStruct.midiOutputCallback, h.mMIDICallbackStruct.userData,
            inTimeStamp, 0, pktlist⟩
        match FireAtTimeStamp L fuel { h with mMIDIMessageList := rest } inTimeStamp
            (fun n => cb (n + 1)) with
        | none => none
        | some out => some ⟨out.helper, call :: out.calls, reportResult (cb 0) ++ out.log⟩
      | .done pktlist =>
        some ⟨{ h with mMIDIMessageList := [] },
          [⟨h.mMIDICallbackStruct.midiOutputCallback, h.mMIDICallbackStruct.userData,
            inTimeStamp, 0, pktlist⟩],
          reportResult (cb 0)⟩
    else
      some ⟨{ h with mMIDIMessageList := [] }, [], []⟩

/-! ## `SinSynthWithMidi` -/

/-- The framework base classes (`AUMonotimbralInstrumentBase`,
`AUInstrumentBase`, `AUMIDIBase`), which are not part of the repository: the
status each base-class call returns for its arguments. -/
structure AUBase where
  SetProperty : Nat → Nat → Nat → AUMIDIOutputCallbackStruct → Nat → OSStatus
  HandleMidiEvent : Nat → Nat → Nat → Nat → Nat → OSStatus
  Render : Nat → AudioTimeStamp → Nat → OSStatus

/-- State of `class SinSynthWithMidi` as far as this file follows it: the
callback helper and the global parameters (`Globals ()->GetParameter (id)`),
of whose values the source only observes whether they are zero. -/
structure SinSynthWithMidi where
  mCallbackHelper : MIDIOutputCallbackHelper
  globals : Nat → Int

/-- The method `SinSynthWithMidi::SetProperty`. `inData` is the payload read as an
`AUMIDIOutputCallbackStruct`; `sizeofCallbackStruct` is
`sizeof (AUMIDIOutputCallbackStruct)` on the platform. -/
def SetProperty (base : AUBase) (sizeofCallbackStruct : Nat) (self : SinSynthWithMidi)
    (inID inScope inElement : Nat) (inData : AUMIDIOutputCallbackStruct) (inDataSize : Nat) :
    OSStatus × SinSynthWithMidi :=
  if inScope = kAudioUnitScope_Global ∧ inID = kAudioUnitProperty_MIDIOutputCallback then
    if inDataSize < sizeofCallbackStruct then
      (kAudioUnitErr_InvalidPropertyValue, self)
    else
      let helper := SetCallbackInfo self.mCallbackHelper inData.midiOutputCallback inData.userData
      (noErr, { self with mCallbackHelper := helper })
  else
    (base.SetProperty inID inScope inElement inData inDataSize, self)

/-- The method `SinSynthWithMidi::HandleMidiEvent`. The parameter value read from
`Globals ()` converts to `bool` as being non-zero. -/
def HandleMidiEvent (base : AUBase) (self : SinSynthWithMidi)
    (status channel data1 data2 inStartFrame : Nat) : OSStatus × SinSynthWithMidi :=
  let sw : Bool := decide (self.globals kGlobalMuteSwitchParam ≠ 0)
  let self1 : SinSynthWithMidi :=
    if !sw || decide (status ≠ 0x90) then
      let helper := AddMIDIEvent self.mCallbackHelper status channel data1 data2 inStartFrame
      { self with mCallbackHelper := helper }
    else self
  (base.HandleMidiEvent status channel data1 data2 inStartFrame, self1)

/-- What a render call leaves behind. -/
structure RenderOutput where
  result : OSStatus
  self : SinSynthWithMidi
  calls : List CallbackCall
  log : List OSStatus

/-- The method `SinSynthWithMidi::Render`. -/
def Render (base : AUBase) (L : PacketListLayout) (fuel : Nat) (self : SinSynthWithMidi)
    (ioActionFlags : Nat) (inTimeStamp : AudioTimeStamp) (inNumberFrames : Nat)
    (cb : Nat → OSStatus) : Option RenderOutput :=
  let result := base.Render ioActionFlags inTimeStamp inNumberFrames
  if result = noErr then
    match FireAtTimeStamp L fuel self.mCallbackHelper inTimeStamp cb with
    | none => none
    | some out => some ⟨result, { self with mCallbackHelper := out.helper }, out.calls, out.log⟩
  else
    some ⟨result, self, [], []⟩

/-- The packet the loop of `FireAtTimeStamp` appends for one record: the
record's frame offset and the first `midiDataCount` bytes of
`{midiStatusByte, item.data1, item.data2}`. -/
def packetOf (item : MIDIMessageInfoStruct) : MIDIPacket :=
  ⟨item.startFrame, [midiStatusByte item, item.data1, item.data2].take (midiDataCount item)⟩

/-- Bytes the packet list of the given records occupies: header plus one
packet per record. -/
def wireSize (L : PacketListLayout) (items : List MIDIMessageInfoStruct) : Nat :=
  MIDIPacketList.byteSize L ⟨items.map packetOf⟩

/-- The helper after `AddMIDIEvent` was called for each of the given records in turn. -/
def addAll (h : MIDIOutputCallbackHelper) (events : List MIDIMessageInfoStruct) :
    MIDIOutputCallbackHelper :=
  events.foldl (fun h e => AddMIDIEvent h e.status e.channel e.data1 e.data2 e.startFrame) h

/-- The invocation a flush makes for the registration `cbs`. -/
def callOf (cbs : AUMIDIOutputCallbackStruct) (inTimeStamp : AudioTimeStamp)
    (pktlist : MIDIPacketList) : CallbackCall :=
  ⟨cbs.midiOutputCallback, cbs.userData, inTimeStamp, 0, pktlist⟩

/-! ## Sample inputs -/

/-- A base class whose calls all succeed. -/
def quietBase : AUBase := ⟨fun _ _ _ _ _ => noErr, fun _ _ _ _ _ => noErr, fun _ _ _ => noErr⟩

/-- A base class whose render fails with the given status. -/
def failingBase (status : OSStatus) : AUBase :=
  ⟨fun _ _ _ _ _ => noErr, fun _ _ _ _ _ => noErr, fun _ _ _ => status⟩

/-- The records of the boundary scenario: 37 Program Changes of 12 bytes each
and 4 Note Ons of 13 bytes each fill 500 of the 512 bytes behind the 4-byte
header. -/
def boundaryRecords : List MIDIMessageInfoStruct :=
  List.replicate 37 ⟨0xC, 0, 5, 0, 0⟩ ++ List.replicate 4 ⟨0x9, 0, 60, 100, 0⟩

/-! ## The loop -/

theorem midiDataCount_le (item : MIDIMessageInfoStruct) : midiDataCount item ≤ 3 := by
  unfold midiDataCount; split <;> omega

theorem midiDataCount_pos (item : MIDIMessageInfoStruct) : 2 ≤ midiDataCount item := by
  unfold midiDataCount; split <;> omega

theorem packetOf_length (item : MIDIMessageInfoStruct) :
    (packetOf item).data.length = midiDataCount item := by
  have := midiDataCount_le item
  simp [packetOf, List.length_take]; omega

theorem byteSize_append (L : PacketListLayout) (ps qs : List MIDIPacket) :
    MIDIPacketList.byteSize L ⟨ps ++ qs⟩ =
      MIDIPacketList.byteSize L ⟨ps⟩ + (qs.map (MIDIPacket.byteSize L)).sum := by
  simp [MIDIPacketList.byteSize, List.sum_append, Nat.add_assoc]

theorem byteSize_snoc (L : PacketListLayout) (ps : List MIDIPacket) (item : MIDIMessageInfoStruct) :
    MIDIPacketList.byteSize L ⟨ps ++ [packetOf item]⟩ =
      MIDIPacketList.byteSize L ⟨ps⟩ + L.packetHeaderSize + midiDataCount item := by
  rw [byteSize_append]
  simp [MIDIPacket.byteSize, packetOf_length, Nat.add_assoc]

theorem byteSize_mono (L : PacketListLayout) (ps qs : List MIDIPacket) :
    MIDIPacketList.byteSize L ⟨ps⟩ ≤ MIDIPacketList.byteSize L ⟨ps ++ qs⟩ := by
  rw [byteSize_append]; omega

/-- One pass of the loop body: the append either adds `packetOf item` or fails. -/
theorem MIDIPacketListAdd_item (L : PacketListLayout) (pktlist : MIDIPacketList)
    (item : MIDIMessageInfoStruct) :
    MIDIPacketListAdd L pktlist kSizeofMIDIBuffer item.startFrame (midiDataCount item)
        [midiStatusByte item, item.data1, item.data2] =
      if MIDIPacketList.byteSize L ⟨pktlist.packet ++ [packetOf item]⟩ ≤ kSizeofMIDIBuffer then
        some ⟨pktlist.packet ++ [packetOf item]⟩
      else none := by
  rw [byteSize_snoc]
  cases pktlist
  simp [MIDIPacketListAdd, packetOf]

theorem packetLoop_cons (L : PacketListLayout) (pktlist : MIDIPacketList)
    (item : MIDIMessageInfoStruct) (rest : List MIDIMessageInfoStruct) :
    packetLoop L pktlist (item :: rest) =
      if MIDIPacketList.byteSize L ⟨pktlist.packet ++ [packetOf item]⟩ ≤ kSizeofMIDIBuffer then
        packetLoop L ⟨pktlist.packet ++ [packetOf item]⟩ rest
      else .overflow pktlist (item :: rest) := by
  rw [packetLoop, MIDIPacketListAdd_item]
  by_cases h : MIDIPacketList.byteSize L ⟨pktlist.packet ++ [packetOf item]⟩ ≤ kSizeofMIDIBuffer
  · simp only [if_pos h]
  · simp only [if_neg h]

/-- Records that all fit are all appended. -/
theorem packetLoop_done_of_fits (L : PacketListLayout) (items : List MIDIMessageInfoStruct) :
    ∀ ps : List MIDIPacket,
      MIDIPacketList.byteSize L ⟨ps ++ items.map packetOf⟩ ≤ kSizeofMIDIBuffer →
      packetLoop L ⟨ps⟩ items = .done ⟨ps ++ items.map packetOf⟩ := by
  induction items with
  | nil => intro ps _; simp [packetLoop]
  | cons item rest ih =>
    intro ps hfit
    have hsplit : ps ++ (item :: rest).map packetOf = (ps ++ [packetOf item]) ++ rest.map packetOf := by
      simp
    rw [hsplit] at hfit
    have h1 := Nat.le_trans (byteSize_mono L (ps ++ [packetOf item]) (rest.map packetOf)) hfit
    rw [packetLoop_cons, if_pos h1, ih _ hfit, hsplit]

/-- The loop stops at the first record that does not fit. -/
theorem packetLoop_overflow_of (L : PacketListLayout) (pre : List MIDIMessageInfoStruct)
    (item : MIDIMessageInfoStruct) (rest : List MIDIMessageInfoStruct) :
    ∀ ps : List MIDIPacket,
      kSizeofMIDIBuffer < MIDIPacketList.byteSize L ⟨ps ++ (pre ++ [item]).map packetOf⟩ →
      MIDIPacketList.byteSize L ⟨ps ++ pre.map packetOf⟩ ≤ kSizeofMIDIBuffer →
      packetLoop L ⟨ps⟩ (pre ++ item :: rest) = .overflow ⟨ps ++ pre.map packetOf⟩ (item :: rest) := by
  induction pre with
  | nil =>
    intro ps hover _
    rw [List.nil_append, packetLoop_cons, if_neg (by simpa using hover)]
    simp
  | cons p pre ih =>
    intro ps hover hfit
    have hsplit : ps ++ (p :: pre).map packetOf = (ps ++ [packetOf p]) ++ pre.map packetOf := by
      simp
    have hsplit2 : ps ++ ((p :: pre) ++ [item]).map packetOf =
        (ps ++ [packetOf p]) ++ (pre ++ [item]).map packetOf := by simp
    rw [hsplit] at hfit
    rw [hsplit2] at hover
    have h1 := Nat.le_trans (byteSize_mono L (ps ++ [packetOf p]) (pre.map packetOf)) hfit
    rw [List.cons_append, packetLoop_cons, if_pos h1, ih _ hover hfit, hsplit]

/-- Every run of the loop is one of the two cases above. -/
theorem packetLoop_cases (L : PacketListLayout) (items : List MIDIMessageInfoStruct) :
    ∀ ps : List MIDIPacket, MIDIPacketList.byteSize L ⟨ps⟩ ≤ kSizeofMIDIBuffer →
      (MIDIPacketList.byteSize L ⟨ps ++ items.map packetOf⟩ ≤ kSizeofMIDIBuffer ∧
        packetLoop L ⟨ps⟩ items = .done ⟨ps ++ items.map packetOf⟩) ∨
      (∃ pre item rest, items = pre ++ item :: rest ∧
        MIDIPacketList.byteSize L ⟨ps ++ pre.map packetOf⟩ ≤ kSizeofMIDIBuffer ∧
        kSizeofMIDIBuffer < MIDIPacketList.byteSize L ⟨ps ++ (pre ++ [item]).map packetOf⟩ ∧
        packetLoop L ⟨ps⟩ items = .overflow ⟨ps ++ pre.map packetOf⟩ (item :: rest)) := by
  induction items with
  | nil =>
    intro ps hps
    left
    simpa [packetLoop] using hps
  | cons item rest ih =>
    intro ps hps
    by_cases h : MIDIPacketList.byteSize L ⟨ps ++ [packetOf item]⟩ ≤ kSizeofMIDIBuffer
    · rcases ih (ps ++ [packetOf item]) h with ⟨hfit, hdone⟩ | ⟨pre, it, tl, hsplit, hfit, hover, hloop⟩
      · left
        refine ⟨by simpa using hfit, ?_⟩
        rw [packetLoop_cons, if_pos h, hdone]
        simp
      · right
        refine ⟨item :: pre, it, tl, by simp [hsplit], by simpa using hfit, by simpa using hover, ?_⟩
        rw [packetLoop_cons, if_pos h, hloop]
        simp
    · right
      refine ⟨[], item, rest, rfl, by simpa using hps, by simpa using h, ?_⟩
      rw [packetLoop_cons, if_neg h]
      simp

/-! ## The flush -/

theorem fire_nil (L : PacketListLayout) (fuel : Nat) (cbs : AUMIDIOutputCallbackStruct)
    (ts : AudioTimeStamp) (cb : Nat → OSStatus) :
    FireAtTimeStamp L (fuel + 1) ⟨cbs, []⟩ ts cb = some ⟨⟨cbs, []⟩, [], []⟩ := by
  simp [FireAtTimeStamp]

theorem fire_unregistered (L : PacketListLayout) (fuel : Nat) (cbs : AUMIDIOutputCallbackStruct)
    (items : List MIDIMessageInfoStruct) (ts : AudioTimeStamp) (cb : Nat → OSStatus)
    (hnull : cbs.midiOutputCallback = 0) :
    FireAtTimeStamp L (fuel + 1) ⟨cbs, items⟩ ts cb = some ⟨⟨cbs, []⟩, [], []⟩ := by
  cases items with
  | nil => exact fire_nil L fuel cbs ts cb
  | cons item rest => simp [FireAtTimeStamp, hnull]

theorem fire_done (L : PacketListLayout) (fuel : Nat) (cbs : AUMIDIOutputCallbackStruct)
    (items : List MIDIMessageInfoStruct) (ts : AudioTimeStamp) (cb : Nat → OSStatus)
    (pktlist : MIDIPacketList)
    (hreg : cbs.midiOutputCallback ≠ 0) (hne : items ≠ [])
    (hloop : packetLoop L MIDIPacketListInit items = .done pktlist) :
    FireAtTimeStamp L (fuel + 1) ⟨cbs, items⟩ ts cb =
      some ⟨⟨cbs, []⟩, [callOf cbs ts pktlist], reportResult (cb 0)⟩ := by
  cases items with
  | nil => exact absurd rfl hne
  | cons item rest => simp [FireAtTimeStamp, hreg, hloop, callOf]

theorem fire_overflow (L : PacketListLayout) (fuel : Nat) (cbs : AUMIDIOutputCallbackStruct)
    (items : List MIDIMessageInfoStruct) (ts : AudioTimeStamp) (cb : Nat → OSStatus)
    (pktlist : MIDIPacketList) (rest : List MIDIMessageInfoStruct)
    (hreg : cbs.midiOutputCallback ≠ 0) (hne : items ≠ [])
    (hloop : packetLoop L MIDIPacketListInit items = .overflow pktlist rest) :
    FireAtTimeStamp L (fuel + 1) ⟨cbs, items⟩ ts cb =
      (FireAtTimeStamp L fuel ⟨cbs, rest⟩ ts (fun n => cb (n + 1))).map
        (fun out => ⟨out.helper, callOf cbs ts pktlist :: out.calls,
          reportResult (cb 0) ++ out.log⟩) := by
  cases items with
  | nil => exact absurd rfl hne
  | cons item tl =>
    simp only [FireAtTimeStamp, List.isEmpty_cons, Bool.false_eq_true, if_false, hreg, ne_eq,
      not_false_eq_true, if_true, hloop, callOf]
    cases FireAtTimeStamp L fuel ⟨cbs, rest⟩ ts (fun n => cb (n + 1)) <;> rfl

/-- A fresh wire buffer takes any one record when header, packet header and
three data bytes fit the buffer: an overflow then leaves strictly fewer records. -/
theorem packetLoop_overflow_shorter (L : PacketListLayout)
    (hL : L.headerSize + L.packetHeaderSize + 3 ≤ kSizeofMIDIBuffer)
    (items : List MIDIMessageInfoStruct) (pktlist : MIDIPacketList)
    (rest : List MIDIMessageInfoStruct)
    (hloop : packetLoop L MIDIPacketListInit items = .overflow pktlist rest) :
    rest.length < items.length ∧ pktlist.packet ≠ [] ∧
      ∃ pre, pre ≠ [] ∧ items = pre ++ rest ∧ pktlist.packet = pre.map packetOf ∧
        pktlist.byteSize L ≤ kSizeofMIDIBuffer := by
  have h0 : MIDIPacketList.byteSize L ⟨[]⟩ ≤ kSizeofMIDIBuffer := by
    simp [MIDIPacketList.byteSize]; omega
  rcases packetLoop_cases L items [] h0 with ⟨_, hdone⟩ | ⟨pre, item, tl, hsplit, hfit, hover, hl⟩
  · rw [show MIDIPacketListInit = ⟨[]⟩ from rfl, hdone] at hloop
    cases hloop
  · rw [show MIDIPacketListInit = ⟨[]⟩ from rfl, hl] at hloop
    injection hloop with hp hr
    subst hp hr
    have hpre : pre ≠ [] := by
      rintro rfl
      have := midiDataCount_le item
      simp [MIDIPacketList.byteSize, MIDIPacket.byteSize, packetOf_length] at hover
      omega
    refine ⟨?_, ?_, pre, hpre, hsplit, by simp, by simpa using hfit⟩
    · have : 0 < pre.length := List.length_pos.mpr hpre
      simp [hsplit]; omega
    · simpa using hpre

/-- Specification of a flush with a registered callback: with fuel for one
call per pending record it completes, empties the pending buffer, and the
packets handed to the callback are, in order, those of the pending records. -/
theorem fire_spec (L : PacketListLayout)
    (hL : L.headerSize + L.packetHeaderSize + 3 ≤ kSizeofMIDIBuffer)
    (cbs : AUMIDIOutputCallbackStruct) (hreg : cbs.midiOutputCallback ≠ 0)
    (ts : AudioTimeStamp) :
    ∀ (fuel : Nat) (items : List MIDIMessageInfoStruct) (cb : Nat → OSStatus),
      items.length < fuel →
      ∃ out, FireAtTimeStamp L fuel ⟨cbs, items⟩ ts cb = some out ∧
        out.helper = ⟨cbs, []⟩ ∧
        (out.calls.map (fun c => c.pktlist.packet)).flatten = items.map packetOf ∧
        (items ≠ [] → out.calls ≠ []) ∧
        ∀ c ∈ out.calls, c.midiOutputCallback = cbs.midiOutputCallback ∧
          c.userData = cbs.userData ∧ c.timeStamp = ts ∧ c.flags = 0 ∧
          c.pktlist.packet ≠ [] ∧ c.pktlist.byteSize L ≤ kSizeofMIDIBuffer := by
  intro fuel
  induction fuel with
  | zero => intro items cb h; omega
  | succ fuel ih =>
    intro items cb hlen
    by_cases hne : items = []
    · subst hne
      exact ⟨_, fire_nil L fuel cbs ts cb, rfl, by simp, by simp, by simp⟩
    · have h0 : MIDIPacketList.byteSize L ⟨[]⟩ ≤ kSizeofMIDIBuffer := by
        simp [MIDIPacketList.byteSize]; omega
      rcases packetLoop_cases L items [] h0 with ⟨hfit, hdone⟩ | ⟨pre, item, tl, hsplit, _, _, hl⟩
      · refine ⟨_, fire_done L fuel cbs items ts cb _ hreg hne hdone, rfl, by simp [callOf],
          by simp, ?_⟩
        intro c hc
        simp only [List.mem_singleton] at hc
        subst hc
        refine ⟨rfl, rfl, rfl, rfl, by simpa [callOf] using hne, by simpa [callOf] using hfit⟩
      · obtain ⟨hshort, hpne, pre2, _, hsplit2, hpk, hsz⟩ :=
          packetLoop_overflow_shorter L hL items _ _ hl
        obtain ⟨out, hout, hhelper, hflat, _, hall⟩ :=
          ih (item :: tl) (fun n => cb (n + 1)) (by omega)
        refine ⟨⟨out.helper, callOf cbs ts ⟨[] ++ pre.map packetOf⟩ :: out.calls,
            reportResult (cb 0) ++ out.log⟩,
          by rw [fire_overflow L fuel cbs items ts cb _ _ hreg hne hl, hout]; rfl,
          hhelper, ?_, by simp, ?_⟩
        · simp only [List.map_cons, List.flatten_cons, hflat, callOf]
          rw [hsplit]
          simp
        · intro c hc
          rcases List.mem_cons.mp hc with rfl | hc
          · exact ⟨rfl, rfl, rfl, rfl, hpne, hsz⟩
          · exact hall c hc

/-- More fuel does not change the outcome of a flush that completed. -/
theorem fire_mono (L : PacketListLayout) (ts : AudioTimeStamp) :
    ∀ (fuel : Nat) (h : MIDIOutputCallbackHelper) (cb : Nat → OSStatus) (out : FireOutput),
      FireAtTimeStamp L fuel h ts cb = some out →
      ∀ k, FireAtTimeStamp L (fuel + k) h ts cb = some out := by
  intro fuel
  induction fuel with
  | zero => intro h cb out hout; simp [FireAtTimeStamp] at hout
  | succ fuel ih =>
    intro h cb out hout k
    obtain ⟨cbs, items⟩ := h
    rw [show fuel + 1 + k = (fuel + k) + 1 by omega]
    by_cases hne : items = []
    · subst hne
      rw [fire_nil] at hout ⊢
      exact hout
    · by_cases hreg : cbs.midiOutputCallback = 0
      · rw [fire_unregistered _ _ _ _ _ _ hreg] at hout ⊢
        exact hout
      · cases hloop : packetLoop L MIDIPacketListInit items with
        | done pktlist =>
          rw [fire_done _ _ _ _ _ _ _ hreg hne hloop] at hout ⊢
          exact hout
        | overflow pktlist rest =>
          rw [fire_overflow _ _ _ _ _ _ _ _ hreg hne hloop] at hout ⊢
          cases hrec : FireAtTimeStamp L fuel ⟨cbs, rest⟩ ts (fun n => cb (n + 1)) with
          | none => rw [hrec] at hout; simp at hout
          | some out1 =>
            rw [hrec] at hout
            rw [ih _ _ _ hrec k]
            exact hout

/-- The status codes the callback returns influence only the log. -/
theorem fire_calls_indep (L : PacketListLayout) (ts : AudioTimeStamp) :
    ∀ (fuel : Nat) (h : MIDIOutputCallbackHelper) (cb1 cb2 : Nat → OSStatus),
      (FireAtTimeStamp L fuel h ts cb1).map (fun out => (out.helper, out.calls)) =
        (FireAtTimeStamp L fuel h ts cb2).map (fun out => (out.helper, out.calls)) := by
  intro fuel
  induction fuel with
  | zero => intro h cb1 cb2; simp [FireAtTimeStamp]
  | succ fuel ih =>
    intro h cb1 cb2
    obtain ⟨cbs, items⟩ := h
    by_cases hne : items = []
    · subst hne
      simp [fire_nil]
    · by_cases hreg : cbs.midiOutputCallback = 0
      · simp [fire_unregistered _ _ _ _ _ _ hreg]
      · cases hloop : packetLoop L MIDIPacketListInit items with
        | done pktlist => simp [fire_done _ _ _ _ _ _ _ hreg hne hloop]
        | overflow pktlist rest =>
          rw [fire_overflow _ _ _ _ _ cb1 _ _ hreg hne hloop,
            fire_overflow _ _ _ _ _ cb2 _ _ hreg hne hloop]
          have := ih ⟨cbs, rest⟩ (fun n => cb1 (n + 1)) (fun n => cb2 (n + 1))
          cases h1 : FireAtTimeStamp L fuel ⟨cbs, rest⟩ ts (fun n => cb1 (n + 1)) <;>
            cases h2 : FireAtTimeStamp L fuel ⟨cbs, rest⟩ ts (fun n => cb2 (n + 1)) <;>
            simp [h1, h2] at this ⊢
          exact this

/-- The log of a flush lists, in order, the non-success codes the callback
returned on the invocations that were made. -/
theorem fire_log (L : PacketListLayout) (ts : AudioTimeStamp) :
    ∀ (fuel : Nat) (h : MIDIOutputCallbackHelper) (cb : Nat → OSStatus) (out : FireOutput),
      FireAtTimeStamp L fuel h ts cb = some out →
      out.log = ((List.range out.calls.length).map cb).filter (fun r => decide (r ≠ noErr)) := by
  intro fuel
  induction fuel with
  | zero => intro h cb out hout; simp [FireAtTimeStamp] at hout
  | succ fuel ih =>
    intro h cb out hout
    obtain ⟨cbs, items⟩ := h
    by_cases hne : items = []
    · subst hne
      rw [fire_nil] at hout
      cases hout; simp
    · by_cases hreg : cbs.midiOutputCallback = 0
      · rw [fire_unregistered _ _ _ _ _ _ hreg] at hout
        cases hout; simp
      · cases hloop : packetLoop L MIDIPacketListInit items with
        | done pktlist =>
          rw [fire_done _ _ _ _ _ _ _ hreg hne hloop] at hout
          cases hout
          by_cases hr : cb 0 = noErr <;> simp [reportResult, hr, List.range_succ, List.filter_cons]
        | overflow pktlist rest =>
          rw [fire_overflow _ _ _ _ _ _ _ _ hreg hne hloop] at hout
          cases hrec : FireAtTimeStamp L fuel ⟨cbs, rest⟩ ts (fun n => cb (n + 1)) with
          | none => rw [hrec] at hout; simp at hout
          | some out1 =>
            rw [hrec] at hout
            cases hout
            have h1 := ih _ _ _ hrec
            simp only [List.length_cons, List.range_succ_eq_map, List.map_cons, List.map_map,
              h1]
            by_cases hr : cb 0 = noErr <;> simp [reportResult, hr, List.filter_cons, Function.comp_def]

/-- With fuel for one call per pending record the flush completes, whether or
not a callback is registered, and leaves nothing pending. -/
theorem fire_total (L : PacketListLayout)
    (hL : L.headerSize + L.packetHeaderSize + 3 ≤ kSizeofMIDIBuffer)
    (h : MIDIOutputCallbackHelper) (ts : AudioTimeStamp) (cb : Nat → OSStatus) (fuel : Nat)
    (hfuel : h.mMIDIMessageList.length < fuel) :
    ∃ out, FireAtTimeStamp L fuel h ts cb = some out ∧
      out.helper = ⟨h.mMIDICallbackStruct, []⟩ ∧
      ∀ c ∈ out.calls, c.timeStamp = ts := by
  obtain ⟨cbs, items⟩ := h
  by_cases hreg : cbs.midiOutputCallback = 0
  · obtain ⟨n, rfl⟩ : ∃ n, fuel = n + 1 := ⟨fuel - 1, by omega⟩
    exact ⟨_, fire_unregistered L n cbs items ts cb hreg, rfl, by simp⟩
  · obtain ⟨out, hout, hh, _, _, hall⟩ := fire_spec L hL cbs hreg ts fuel items cb hfuel
    exact ⟨out, hout, hh, fun c hc => (hall c hc).2.2.1⟩

theorem addAll_eq (h : MIDIOutputCallbackHelper) (events : List MIDIMessageInfoStruct) :
    addAll h events = ⟨h.mMIDICallbackStruct, h.mMIDIMessageList ++ events⟩ := by
  induction events generalizing h with
  | nil => simp [addAll]
  | cons e rest ih =>
    have : addAll h (e :: rest) =
        addAll (AddMIDIEvent h e.status e.channel e.data1 e.data2 e.startFrame) rest := rfl
    rw [this, ih]
    simp [AddMIDIEvent]

/-- A record whose status carries the message type in the high nibble, the
form `HandleMidiEvent` tests with `status != 0x90`, equals neither 0xC nor
0xD: a Program Change 0xC0 or Channel Pressure 0xD0 record is serialised
with three data bytes. -/
theorem midiDataCount_high_nibble_status (s channel data1 data2 startFrame : Nat) :
    midiDataCount ⟨16 * s, channel, data1, data2, startFrame⟩ = 3 := by
  unfold midiDataCount
  rw [if_neg]
  simp only [not_or]
  constructor <;> omega

/-- What the length test of the loop does, over the record's status field:
the flush serialises 2 data bytes (status byte and data1) exactly for the
records whose status field equals 0xC or 0xD, and 3 for every other value of
the field. -/
theorem flush_data_lengths (L : PacketListLayout)
    (hL : L.headerSize + L.packetHeaderSize + 3 ≤ kSizeofMIDIBuffer)
    (h : MIDIOutputCallbackHelper) (hpending : h.mMIDIMessageList = [])
    (hreg : h.mMIDICallbackStruct.midiOutputCallback ≠ 0)
    (events : List MIDIMessageInfoStruct) (ts : AudioTimeStamp) (cb : Nat → OSStatus)
    (fuel : Nat) (hfuel : events.length < fuel) :
    ∃ out, FireAtTimeStamp L fuel (addAll h events) ts cb = some out ∧
      ((out.calls.map (fun c => c.pktlist.packet)).flatten).map (fun p => p.data.length) =
        events.map (fun e => if e.status = 0xC ∨ e.status = 0xD then 2 else 3) ∧
      ((out.calls.map (fun c => c.pktlist.packet)).flatten).map (fun p => p.data) =
        events.map (fun e => if e.status = 0xC ∨ e.status = 0xD then
          [midiStatusByte e, e.data1] else [midiStatusByte e, e.data1, e.data2]) := by
  obtain ⟨out, hout, _, hflat, _, _⟩ :=
    fire_spec L hL h.mMIDICallbackStruct hreg ts fuel events cb hfuel
  refine ⟨out, ?_, ?_, ?_⟩
  · rw [addAll_eq, hpending, List.nil_append]
    exact hout
  · rw [hflat, List.map_map]
    apply List.map_congr_left
    intro e _
    simp only [Function.comp_apply, packetOf_length, midiDataCount]
  · rw [hflat, List.map_map]
    apply List.map_congr_left
    intro e _
    by_cases hs : e.status = 0xC ∨ e.status = 0xD <;>
      simp [packetOf, midiDataCount, hs]

/-! ## The claims -/

/-- C1: for every sequence of events added with `AddMIDIEvent` to a helper
with nothing pending and a registered callback, the following
`FireAtTimeStamp` completes and the packets of the packet lists it hands to
the callback, concatenated in invocation order, are exactly one packet per
added event in the order of addition: none dropped, duplicated or reordered,
however many invocations the 512-byte buffer forces. Every packet list
handed over fits the buffer. -/
theorem C1_flush_emits_added_events (L : PacketListLayout)
    (hL : L.headerSize + L.packetHeaderSize + 3 ≤ kSizeofMIDIBuffer)
    (h : MIDIOutputCallbackHelper) (hpending : h.mMIDIMessageList = [])
    (hreg : h.mMIDICallbackStruct.midiOutputCallback ≠ 0)
    (events : List MIDIMessageInfoStruct) (ts : AudioTimeStamp) (cb : Nat → OSStatus)
    (fuel : Nat) (hfuel : events.length < fuel) :
    ∃ out, FireAtTimeStamp L fuel (addAll h events) ts cb = some out ∧
      (out.calls.map (fun c => c.pktlist.packet)).flatten = events.map packetOf ∧
      ((out.calls.map (fun c => c.pktlist.packet)).flatten).length = events.length ∧
      ∀ c ∈ out.calls, c.pktlist.byteSize L ≤ kSizeofMIDIBuffer := by
  obtain ⟨out, hout, _, hflat, _, hall⟩ :=
    fire_spec L hL h.mMIDICallbackStruct hreg ts fuel events cb hfuel
  refine ⟨out, ?_, hflat, by rw [hflat, List.length_map], fun c hc => (hall c hc).2.2.2.2.2⟩
  rw [addAll_eq, hpending, List.nil_append]
  exact hout

/-- C1 at a concrete input: 60 Note On events force two invocations. -/
theorem C1_flush_emits_added_events_witness :
    coreMIDILayout.headerSize + coreMIDILayout.packetHeaderSize + 3 ≤ kSizeofMIDIBuffer ∧
    (SetCallbackInfo (MIDIOutputCallbackHelper.new 0) 1 7).mMIDIMessageList = [] ∧
    (SetCallbackInfo (MIDIOutputCallbackHelper.new 0) 1 7).mMIDICallbackStruct.midiOutputCallback ≠ 0 ∧
    (List.replicate 60 (⟨0x90, 0, 60, 100, 0⟩ : MIDIMessageInfoStruct)).length < 61 ∧
    ∃ out, FireAtTimeStamp coreMIDILayout 61
        (addAll (SetCallbackInfo (MIDIOutputCallbackHelper.new 0) 1 7)
          (List.replicate 60 ⟨0x90, 0, 60, 100, 0⟩)) 0 (fun _ => noErr) = some out ∧
      (out.calls.map (fun c => c.pktlist.packet)).flatten =
        (List.replicate 60 (⟨0x90, 0, 60, 100, 0⟩ : MIDIMessageInfoStruct)).map packetOf ∧
      ((out.calls.map (fun c => c.pktlist.packet)).flatten).length =
        (List.replicate 60 (⟨0x90, 0, 60, 100, 0⟩ : MIDIMessageInfoStruct)).length ∧
      ∀ c ∈ out.calls, c.pktlist.byteSize coreMIDILayout ≤ kSizeofMIDIBuffer :=
  ⟨by decide, rfl, by decide, by simp,
    C1_flush_emits_added_events coreMIDILayout (by decide)
      (SetCallbackInfo (MIDIOutputCallbackHelper.new 0) 1 7) rfl (by decide)
      (List.replicate 60 ⟨0x90, 0, 60, 100, 0⟩) 0 (fun _ => noErr) 61 (by simp)⟩

/-- C2, as stated, fails: for the record (0x9, 0, 60, 100, frame 0) the
status byte the flush emits is 0x09, not 16 * 9 + 0 = 0x90, and the flush of
(0x9, 0, 60, 100, 0), (0x8, 0, 60, 0, 256) hands over the packets
{0x09, 60, 100} and {0x08, 60, 0}, not {0x90, 60, 100} and {0x80, 60, 0}. -/
theorem C2_status_byte_counterexample :
    midiStatusByte ⟨0x9, 0, 60, 100, 0⟩ ≠ 16 * 0x9 + 0 ∧
    (FireAtTimeStamp coreMIDILayout 3
        (addAll (SetCallbackInfo (MIDIOutputCallbackHelper.new 0) 1 7)
          [⟨0x9, 0, 60, 100, 0⟩, ⟨0x8, 0, 60, 0, 256⟩]) 0 (fun _ => noErr)).map
        (fun out => out.calls.map (fun c => c.pktlist.packet)) =
      some [[⟨0, [0x09, 60, 100]⟩, ⟨256, [0x08, 60, 0]⟩]] ∧
    (FireAtTimeStamp coreMIDILayout 3
        (addAll (SetCallbackInfo (MIDIOutputCallbackHelper.new 0) 1 7)
          [⟨0x9, 0, 60, 100, 0⟩, ⟨0x8, 0, 60, 0, 256⟩]) 0 (fun _ => noErr)).map
        (fun out => out.calls.map (fun c => c.pktlist.packet)) ≠
      some [[⟨0, [0x90, 60, 100]⟩, ⟨256, [0x80, 60, 0]⟩]] := by
  decide

/-- C2, amended: for every buffered record the packet the flush emits has the
record's frame offset and a payload whose first byte is
(status + channel) mod 256, followed by data1, and by data2 unless the status
is 0xC or 0xD. When the record's status is 16 * s (the message type in the
high nibble, as in 0x90) with s and the channel c below 16, that first byte
is 16 * s + c. Adding (0x90, 0, 60, 100, frame 0) and (0x80, 0, 60, 0,
frame 256) and flushing yields exactly one invocation, with the two packets
{0x90, 60, 100} at offset 0 and {0x80, 60, 0} at offset 256. -/
theorem C2_packet_contents (L : PacketListLayout)
    (hL : L.headerSize + L.packetHeaderSize + 3 ≤ kSizeofMIDIBuffer)
    (h : MIDIOutputCallbackHelper) (hpending : h.mMIDIMessageList = [])
    (hreg : h.mMIDICallbackStruct.midiOutputCallback ≠ 0)
    (events : List MIDIMessageInfoStruct) (ts : AudioTimeStamp) (cb : Nat → OSStatus)
    (fuel : Nat) (hfuel : events.length < fuel) :
    (∃ out, FireAtTimeStamp L fuel (addAll h events) ts cb = some out ∧
      (out.calls.map (fun c => c.pktlist.packet)).flatten =
        events.map (fun e => (⟨e.startFrame,
          (e.status + e.channel) % 256 :: e.data1 ::
            (if e.status = 0xC ∨ e.status = 0xD then [] else [e.data2])⟩ : MIDIPacket))) ∧
    (∀ s c d1 d2 f : Nat, s < 16 → c < 16 →
      midiStatusByte ⟨16 * s, c, d1, d2, f⟩ = 16 * s + c ∧
      (packetOf ⟨16 * s, c, d1, d2, f⟩).timeStamp = f ∧
      (packetOf ⟨16 * s, c, d1, d2, f⟩).data.head? = some (16 * s + c)) ∧
    (FireAtTimeStamp coreMIDILayout (fuel + 1)
        (addAll h [⟨0x90, 0, 60, 100, 0⟩, ⟨0x80, 0, 60, 0, 256⟩]) ts cb).map (fun out => out.calls) =
      some [⟨h.mMIDICallbackStruct.midiOutputCallback, h.mMIDICallbackStruct.userData, ts, 0,
        ⟨[⟨0, [0x90, 60, 100]⟩, ⟨256, [0x80, 60, 0]⟩]⟩⟩] := by
  refine ⟨?_, ?_, ?_⟩
  · obtain ⟨out, hout, _, hflat, _, _⟩ :=
      fire_spec L hL h.mMIDICallbackStruct hreg ts fuel events cb hfuel
    refine ⟨out, ?_, ?_⟩
    · rw [addAll_eq, hpending, List.nil_append]
      exact hout
    · rw [hflat]
      apply List.map_congr_left
      intro e _
      by_cases hs : e.status = 0xC ∨ e.status = 0xD <;>
        simp [packetOf, midiDataCount, midiStatusByte, hs]
  · intro s c d1 d2 f hs hc
    have hb : (16 * s + c) % 256 = 16 * s + c := Nat.mod_eq_of_lt (by omega)
    refine ⟨hb, rfl, ?_⟩
    have h2 := midiDataCount_pos ⟨16 * s, c, d1, d2, f⟩
    have h3 := midiDataCount_le ⟨16 * s, c, d1, d2, f⟩
    have hcases : midiDataCount ⟨16 * s, c, d1, d2, f⟩ = 2 ∨
        midiDataCount ⟨16 * s, c, d1, d2, f⟩ = 3 := by omega
    rcases hcases with h' | h' <;> simp [packetOf, h', midiStatusByte, hb]
  · rw [addAll_eq, hpending, List.nil_append]
    rw [fire_done coreMIDILayout fuel h.mMIDICallbackStruct _ ts cb
      ⟨[⟨0, [0x90, 60, 100]⟩, ⟨256, [0x80, 60, 0]⟩]⟩ hreg (by simp) (by decide)]
    rfl

/-- C2 (amended) at the scenario of the specification, with the statuses
0x90 and 0x80. -/
theorem C2_packet_contents_witness :
    coreMIDILayout.headerSize + coreMIDILayout.packetHeaderSize + 3 ≤ kSizeofMIDIBuffer ∧
    (FireAtTimeStamp coreMIDILayout 4
        (addAll (SetCallbackInfo (MIDIOutputCallbackHelper.new 0) 1 7)
          [⟨0x90, 0, 60, 100, 0⟩, ⟨0x80, 0, 60, 0, 256⟩]) 5 (fun _ => noErr)).map
        (fun out => out.calls) =
      some [⟨1, 7, 5, 0, ⟨[⟨0, [0x90, 60, 100]⟩, ⟨256, [0x80, 60, 0]⟩]⟩⟩] :=
  ⟨by decide,
    (C2_packet_contents coreMIDILayout (by decide)
      (SetCallbackInfo (MIDIOutputCallbackHelper.new 0) 1 7) rfl (by decide)
      [⟨0x90, 0, 60, 100, 0⟩, ⟨0x80, 0, 60, 0, 256⟩] 5 (fun _ => noErr) 3 (by decide)).2.2⟩

/-- C3, code defect: a Program Change or Channel Pressure record is not
serialised with 2 data bytes. `HandleMidiEvent` receives the message type in
the high nibble of the status (it tests `status != 0x90`) and the flush forms
the status byte as `status + channel`, but the length test compares the same
field with 0xC and 0xD. With the mute switch off and a callback registered,
the Program Change (0xC0, channel 1, data1 5, data2 77) and the Channel
Pressure (0xD0, channel 2, data1 64, data2 0) are recorded and flushed as the
3-byte packets {0xC1, 5, 77} and {0xD2, 64, 0}; for every channel and data
bytes the length computed for a 0xC0 or 0xD0 record is 3. -/
theorem C3_program_change_three_bytes :
    (HandleMidiEvent quietBase
        ⟨SetCallbackInfo (MIDIOutputCallbackHelper.new 0) 1 7, fun _ => 0⟩
        0xC0 1 5 77 0).2.mCallbackHelper.mMIDIMessageList = [⟨0xC0, 1, 5, 77, 0⟩] ∧
    (FireAtTimeStamp coreMIDILayout 2
        (HandleMidiEvent quietBase
          (HandleMidiEvent quietBase
            ⟨SetCallbackInfo (MIDIOutputCallbackHelper.new 0) 1 7, fun _ => 0⟩
            0xC0 1 5 77 0).2
          0xD0 2 64 0 8).2.mCallbackHelper 0 (fun _ => noErr)).map
        (fun out => out.calls.map (fun c => c.pktlist.packet)) =
      some [[⟨0, [0xC1, 5, 77]⟩, ⟨8, [0xD2, 64, 0]⟩]] ∧
    (∀ channel data1 data2 startFrame : Nat,
      midiDataCount ⟨0xC0, channel, data1, data2, startFrame⟩ = 3 ∧
      midiDataCount ⟨0xD0, channel, data1, data2, startFrame⟩ = 3 ∧
      (packetOf ⟨0xC0, channel, data1, data2, startFrame⟩).data =
        [(0xC0 + channel) % 256, data1, data2] ∧
      (packetOf ⟨0xD0, channel, data1, data2, startFrame⟩).data =
        [(0xD0 + channel) % 256, data1, data2]) := by
  refine ⟨by decide, by decide, ?_⟩
  intro channel data1 data2 startFrame
  simp [packetOf, midiDataCount, midiStatusByte]

/-- C4, as stated, fails: with the mute switch on, a Note On given as the
status nibble 0x9 of the specification's data model is added to the pending
buffer all the same. -/
theorem C4_mute_counterexample :
    (HandleMidiEvent quietBase ⟨MIDIOutputCallbackHelper.new 0, fun _ => 1⟩
        0x9 0 60 100 0).2.mCallbackHelper.mMIDIMessageList = [⟨0x9, 0, 60, 100, 0⟩] ∧
    (HandleMidiEvent quietBase ⟨MIDIOutputCallbackHelper.new 0, fun _ => 1⟩
        0x9 0 60 100 0).2.mCallbackHelper.mMIDIMessageList ≠ [] := by
  decide

/-- C4, amended: while the mute switch parameter is non-zero,
`HandleMidiEvent` does not add an event whose status argument is 0x90 (Note
On as a status byte with the channel bits cleared) and leaves the pending
buffer as it was; every other event while the switch is on, and every event
while it is off, is appended exactly once at the end of the pending buffer.
In all cases the registered callback and the parameters are untouched, and
the same (status, channel, data1, data2, startFrame) goes to the underlying
handler, whose result is returned. -/
theorem C4_mute_drops_note_on (base : AUBase) (self : SinSynthWithMidi)
    (status channel data1 data2 inStartFrame : Nat) :
    (HandleMidiEvent base self status channel data1 data2 inStartFrame).1 =
      base.HandleMidiEvent status channel data1 data2 inStartFrame ∧
    (HandleMidiEvent base self status channel data1 data2 inStartFrame).2.mCallbackHelper.mMIDIMessageList =
      (if self.globals kGlobalMuteSwitchParam ≠ 0 ∧ status = 0x90 then
        self.mCallbackHelper.mMIDIMessageList
      else
        self.mCallbackHelper.mMIDIMessageList ++ [⟨status, channel, data1, data2, inStartFrame⟩]) ∧
    (HandleMidiEvent base self status channel data1 data2 inStartFrame).2.mCallbackHelper.mMIDICallbackStruct =
      self.mCallbackHelper.mMIDICallbackStruct ∧
    (HandleMidiEvent base self status channel data1 data2 inStartFrame).2.globals = self.globals := by
  by_cases hsw : self.globals kGlobalMuteSwitchParam = 0 <;>
    by_cases hst : status = 0x90 <;>
    simp [HandleMidiEvent, AddMIDIEvent, hsw, hst]

/-- C5: with a callback registered, when the packet list of all pending
records is exactly one byte over the 512-byte capacity (the list of all but
the last then fits), the flush invokes the callback exactly twice: first with
the packets of every record except the last, then with the packet of the last
record alone; nothing stays pending. -/
theorem C5_capacity_boundary (L : PacketListLayout)
    (hL : L.headerSize + L.packetHeaderSize + 3 ≤ kSizeofMIDIBuffer)
    (cbs : AUMIDIOutputCallbackStruct) (hreg : cbs.midiOutputCallback ≠ 0)
    (pre : List MIDIMessageInfoStruct) (last : MIDIMessageInfoStruct)
    (ts : AudioTimeStamp) (cb : Nat → OSStatus) (fuel : Nat) (hfuel : 2 ≤ fuel)
    (hover : wireSize L (pre ++ [last]) = kSizeofMIDIBuffer + 1) :
    wireSize L pre ≤ kSizeofMIDIBuffer ∧
    ∃ out, FireAtTimeStamp L fuel ⟨cbs, pre ++ [last]⟩ ts cb = some out ∧
      out.calls = [callOf cbs ts ⟨pre.map packetOf⟩, callOf cbs ts ⟨[packetOf last]⟩] ∧
      out.calls.length = 2 ∧
      out.helper = ⟨cbs, []⟩ := by
  have hlast2 := midiDataCount_pos last
  have hlast3 := midiDataCount_le last
  have hsz : wireSize L (pre ++ [last]) =
      wireSize L pre + L.packetHeaderSize + midiDataCount last := by
    simp only [wireSize, List.map_append, List.map_cons, List.map_nil]
    exact byteSize_snoc L _ last
  have hfit : wireSize L pre ≤ kSizeofMIDIBuffer := by omega
  refine ⟨hfit, ?_⟩
  have hloop1 : packetLoop L MIDIPacketListInit (pre ++ [last]) =
      .overflow ⟨pre.map packetOf⟩ [last] := by
    have := packetLoop_overflow_of L pre last [] []
      (by simp only [List.nil_append]; unfold wireSize at hover; omega)
      (by simpa [wireSize] using hfit)
    simpa [MIDIPacketListInit] using this
  have hloop2 : packetLoop L MIDIPacketListInit [last] = .done ⟨[packetOf last]⟩ := by
    have := packetLoop_done_of_fits L [last] []
      (by
        simp [MIDIPacketList.byteSize, MIDIPacket.byteSize, packetOf_length]
        omega)
    simpa [MIDIPacketListInit] using this
  have h2 : FireAtTimeStamp L 2 ⟨cbs, pre ++ [last]⟩ ts cb =
      some ⟨⟨cbs, []⟩, [callOf cbs ts ⟨pre.map packetOf⟩, callOf cbs ts ⟨[packetOf last]⟩],
        reportResult (cb 0) ++ reportResult (cb 1)⟩ := by
    rw [fire_overflow L 1 cbs _ ts cb _ _ hreg (by simp) hloop1,
      fire_done L 0 cbs [last] ts _ _ hreg (by simp) hloop2]
    rfl
  obtain ⟨k, rfl⟩ : ∃ k, fuel = 2 + k := ⟨fuel - 2, by omega⟩
  exact ⟨_, fire_mono L ts 2 _ cb _ h2 k, rfl, rfl, rfl⟩

/-- C5 at a concrete input: a further Note On behind `boundaryRecords` brings
the packet list to 513 bytes. -/
theorem C5_capacity_boundary_witness :
    coreMIDILayout.headerSize + coreMIDILayout.packetHeaderSize + 3 ≤ kSizeofMIDIBuffer ∧
    wireSize coreMIDILayout (boundaryRecords ++ [⟨0x9, 0, 60, 100, 0⟩]) = kSizeofMIDIBuffer + 1 ∧
    wireSize coreMIDILayout boundaryRecords ≤ kSizeofMIDIBuffer ∧
    ∃ out, FireAtTimeStamp coreMIDILayout 2 ⟨⟨1, 7⟩, boundaryRecords ++ [⟨0x9, 0, 60, 100, 0⟩]⟩ 0
        (fun _ => noErr) = some out ∧
      out.calls = [callOf ⟨1, 7⟩ 0 ⟨boundaryRecords.map packetOf⟩,
        callOf ⟨1, 7⟩ 0 ⟨[packetOf ⟨0x9, 0, 60, 100, 0⟩]⟩] ∧
      out.calls.length = 2 ∧
      out.helper = ⟨⟨1, 7⟩, []⟩ :=
  ⟨by decide, by decide,
    C5_capacity_boundary coreMIDILayout (by decide) ⟨1, 7⟩ (by decide) boundaryRecords
      ⟨0x9, 0, 60, 100, 0⟩ 0 (fun _ => noErr) 2 (by decide) (by decide)⟩

/-- C6: when nothing is pending, or no callback is registered (whatever is
pending), `FireAtTimeStamp` completes at its first call without invoking the
callback or reporting anything, leaves nothing pending and keeps the
registration. -/
theorem C6_no_callback_invocation (L : PacketListLayout) (fuel : Nat)
    (h : MIDIOutputCallbackHelper) (ts : AudioTimeStamp) (cb : Nat → OSStatus)
    (hcase : h.mMIDIMessageList = [] ∨ h.mMIDICallbackStruct.midiOutputCallback = 0) :
    ∃ out, FireAtTimeStamp L (fuel + 1) h ts cb = some out ∧
      out.calls = [] ∧ out.log = [] ∧
      out.helper.mMIDIMessageList = [] ∧
      out.helper.mMIDICallbackStruct = h.mMIDICallbackStruct := by
  obtain ⟨cbs, items⟩ := h
  rcases hcase with hempty | hnull
  · simp only at hempty
    subst hempty
    exact ⟨_, fire_nil L fuel cbs ts cb, rfl, rfl, rfl, rfl⟩
  · exact ⟨_, fire_unregistered L fuel cbs items ts cb hnull, rfl, rfl, rfl, rfl⟩

/-- C6 at the scenario of the specification: no callback registered, five
events added, one flush. -/
theorem C6_no_callback_invocation_witness :
    ((addAll (MIDIOutputCallbackHelper.new 0)
        (List.replicate 5 ⟨0x90, 0, 60, 100, 0⟩)).mMIDIMessageList = [] ∨
      (addAll (MIDIOutputCallbackHelper.new 0)
        (List.replicate 5 ⟨0x90, 0, 60, 100, 0⟩)).mMIDICallbackStruct.midiOutputCallback = 0) ∧
    ∃ out, FireAtTimeStamp coreMIDILayout (0 + 1)
        (addAll (MIDIOutputCallbackHelper.new 0) (List.replicate 5 ⟨0x90, 0, 60, 100, 0⟩)) 0
        (fun _ => noErr) = some out ∧
      out.calls = [] ∧ out.log = [] ∧
      out.helper.mMIDIMessageList = [] ∧
      out.helper.mMIDICallbackStruct =
        (addAll (MIDIOutputCallbackHelper.new 0)
          (List.replicate 5 ⟨0x90, 0, 60, 100, 0⟩)).mMIDICallbackStruct :=
  ⟨Or.inr (by decide),
    C6_no_callback_invocation coreMIDILayout 0
      (addAll (MIDIOutputCallbackHelper.new 0) (List.replicate 5 ⟨0x90, 0, 60, 100, 0⟩)) 0
      (fun _ => noErr) (Or.inr (by decide))⟩

/-- C7: a failing callback is not fatal to the flush. For every pending list
and registered callback, whatever status codes the callback returns (`cb1`
against `cb2`), the flush completes, hands the same invocations (packet lists
and time stamps, in the same order) to the callback and leaves the same
helper with nothing pending; the codes only decide what is reported: the log
holds the non-success codes of the invocations made. -/
theorem C7_callback_failure_not_fatal (L : PacketListLayout)
    (hL : L.headerSize + L.packetHeaderSize + 3 ≤ kSizeofMIDIBuffer)
    (h : MIDIOutputCallbackHelper) (hreg : h.mMIDICallbackStruct.midiOutputCallback ≠ 0)
    (ts : AudioTimeStamp) (cb1 cb2 : Nat → OSStatus)
    (fuel : Nat) (hfuel : h.mMIDIMessageList.length < fuel) :
    ∃ out1 out2, FireAtTimeStamp L fuel h ts cb1 = some out1 ∧
      FireAtTimeStamp L fuel h ts cb2 = some out2 ∧
      out1.calls = out2.calls ∧ out1.helper = out2.helper ∧
      out1.helper.mMIDIMessageList = [] ∧
      (h.mMIDIMessageList ≠ [] → out1.calls ≠ []) ∧
      out1.log = ((List.range out1.calls.length).map cb1).filter (fun r => decide (r ≠ noErr)) ∧
      out2.log = ((List.range out2.calls.length).map cb2).filter (fun r => decide (r ≠ noErr)) := by
  obtain ⟨cbs, items⟩ := h
  obtain ⟨out1, h1, hh1, _, hne1, _⟩ := fire_spec L hL cbs hreg ts fuel items cb1 hfuel
  obtain ⟨out2, h2, _, _, _, _⟩ := fire_spec L hL cbs hreg ts fuel items cb2 hfuel
  have hind := fire_calls_indep L ts fuel ⟨cbs, items⟩ cb1 cb2
  rw [h1, h2] at hind
  simp only [Option.map_some', Option.some.injEq, Prod.mk.injEq] at hind
  exact ⟨out1, out2, h1, h2, hind.2, hind.1, by rw [hh1], hne1,
    fire_log L ts fuel _ cb1 out1 h1, fire_log L ts fuel _ cb2 out2 h2⟩

/-- C7 at a concrete input: 60 pending Note Ons force two invocations; one
callback always succeeds, the other fails with -50 on the overflow-triggered
first invocation and with -1 on the final one. -/
theorem C7_callback_failure_not_fatal_witness :
    coreMIDILayout.headerSize + coreMIDILayout.packetHeaderSize + 3 ≤ kSizeofMIDIBuffer ∧
    ∃ out1 out2,
      FireAtTimeStamp coreMIDILayout 61 ⟨⟨1, 7⟩, List.replicate 60 ⟨0x90, 0, 60, 100, 0⟩⟩ 0
        (fun _ => noErr) = some out1 ∧
      FireAtTimeStamp coreMIDILayout 61 ⟨⟨1, 7⟩, List.replicate 60 ⟨0x90, 0, 60, 100, 0⟩⟩ 0
        (fun n => if n = 0 then -50 else -1) = some out2 ∧
      out1.calls = out2.calls ∧ out1.helper = out2.helper ∧
      out1.helper.mMIDIMessageList = [] ∧
      ((⟨⟨1, 7⟩, List.replicate 60 ⟨0x90, 0, 60, 100, 0⟩⟩ :
          MIDIOutputCallbackHelper).mMIDIMessageList ≠ [] → out1.calls ≠ []) ∧
      out1.log = ((List.range out1.calls.length).map (fun _ => noErr)).filter
        (fun r => decide (r ≠ noErr)) ∧
      out2.log = ((List.range out2.calls.length).map
        (fun n => if n = 0 then (-50 : OSStatus) else -1)).filter (fun r => decide (r ≠ noErr)) :=
  ⟨by decide,
    C7_callback_failure_not_fatal coreMIDILayout (by decide)
      ⟨⟨1, 7⟩, List.replicate 60 ⟨0x90, 0, 60, 100, 0⟩⟩ (by decide) 0
      (fun _ => noErr) (fun n => if n = 0 then -50 else -1) 61 (by simp)⟩

/-- C8: a global-scope set request for the MIDI output callback property
returns the invalid-property-value error exactly when the payload is smaller
than the callback structure (for instance two bytes smaller) and then leaves
the instrument, its registration included, as it was; otherwise it returns
`noErr`, the registration is exactly the supplied callback and user data, and
the pending records and parameters are untouched. -/
theorem C8_set_callback_property (base : AUBase) (sizeofCallbackStruct : Nat)
    (self : SinSynthWithMidi) (inElement : Nat) (inData : AUMIDIOutputCallbackStruct)
    (inDataSize : Nat) :
    ((SetProperty base sizeofCallbackStruct self kAudioUnitProperty_MIDIOutputCallback
        kAudioUnitScope_Global inElement inData inDataSize).1 =
          kAudioUnitErr_InvalidPropertyValue ↔ inDataSize < sizeofCallbackStruct) ∧
    SetProperty base sizeofCallbackStruct self kAudioUnitProperty_MIDIOutputCallback
        kAudioUnitScope_Global inElement inData inDataSize =
      (if inDataSize < sizeofCallbackStruct then (kAudioUnitErr_InvalidPropertyValue, self)
       else (noErr, ⟨⟨inData, self.mCallbackHelper.mMIDIMessageList⟩, self.globals⟩)) ∧
    (SetProperty base (inDataSize + 2) self kAudioUnitProperty_MIDIOutputCallback
        kAudioUnitScope_Global inElement inData inDataSize) =
      (kAudioUnitErr_InvalidPropertyValue, self) := by
  refine ⟨?_, ?_, ?_⟩
  · by_cases hsz : inDataSize < sizeofCallbackStruct
    · simp [SetProperty, hsz]
    · simp [SetProperty, hsz, noErr, kAudioUnitErr_InvalidPropertyValue]
  · by_cases hsz : inDataSize < sizeofCallbackStruct <;>
      simp [SetProperty, SetCallbackInfo, hsz]
  · simp [SetProperty]

/-- C9: `Render` returns the status of the underlying render. On a failure
it invokes nothing and leaves the instrument as it was; on success it is one
`FireAtTimeStamp` with the block's time stamp: its invocations, log and
helper are those of that flush, every invocation carries the time stamp, and
nothing stays pending. -/
theorem C9_render_flushes_on_success (base : AUBase) (L : PacketListLayout)
    (hL : L.headerSize + L.packetHeaderSize + 3 ≤ kSizeofMIDIBuffer)
    (self : SinSynthWithMidi) (ioActionFlags : Nat) (inTimeStamp : AudioTimeStamp)
    (inNumberFrames : Nat) (cb : Nat → OSStatus) (fuel : Nat)
    (hfuel : self.mCallbackHelper.mMIDIMessageList.length < fuel) :
    ∃ r, Render base L fuel self ioActionFlags inTimeStamp inNumberFrames cb = some r ∧
      r.result = base.Render ioActionFlags inTimeStamp inNumberFrames ∧
      r.self.globals = self.globals ∧
      (r.result ≠ noErr → r.calls = [] ∧ r.log = [] ∧ r.self.mCallbackHelper = self.mCallbackHelper) ∧
      (r.result = noErr →
        ∃ out, FireAtTimeStamp L fuel self.mCallbackHelper inTimeStamp cb = some out ∧
          r.calls = out.calls ∧ r.log = out.log ∧ r.self.mCallbackHelper = out.helper ∧
          r.self.mCallbackHelper.mMIDIMessageList = [] ∧
          ∀ c ∈ r.calls, c.timeStamp = inTimeStamp) := by
  by_cases hres : base.Render ioActionFlags inTimeStamp inNumberFrames = noErr
  · obtain ⟨out, hout, hh, hts⟩ := fire_total L hL self.mCallbackHelper inTimeStamp cb fuel hfuel
    refine ⟨⟨base.Render ioActionFlags inTimeStamp inNumberFrames,
      { self with mCallbackHelper := out.helper }, out.calls, out.log⟩, ?_, rfl, rfl, ?_, ?_⟩
    · simp [Render, hres, hout]
    · intro hne; exact absurd hres hne
    · intro _
      exact ⟨out, hout, rfl, rfl, rfl, by simp [hh], hts⟩
  · refine ⟨⟨base.Render ioActionFlags inTimeStamp inNumberFrames, self, [], []⟩, ?_, rfl, rfl,
      ?_, ?_⟩
    · simp [Render, hres]
    · intro _; exact ⟨rfl, rfl, rfl⟩
    · intro h; exact absurd h hres

/-- C9 at a concrete input: the underlying render fails with -10863 while two
events are pending and a callback is registered. -/
theorem C9_render_flushes_on_success_witness :
    coreMIDILayout.headerSize + coreMIDILayout.packetHeaderSize + 3 ≤ kSizeofMIDIBuffer ∧
    ∃ r, Render (failingBase (-10863)) coreMIDILayout 3
        ⟨⟨⟨1, 7⟩, [⟨0x90, 0, 60, 100, 0⟩, ⟨0x80, 0, 60, 0, 256⟩]⟩, fun _ => 0⟩ 0 5 512
        (fun _ => noErr) = some r ∧
      r.result = (failingBase (-10863)).Render 0 5 512 ∧
      r.self.globals = (fun _ => 0) ∧
      (r.result ≠ noErr → r.calls = [] ∧ r.log = [] ∧
        r.self.mCallbackHelper = ⟨⟨1, 7⟩, [⟨0x90, 0, 60, 100, 0⟩, ⟨0x80, 0, 60, 0, 256⟩]⟩) ∧
      (r.result = noErr →
        ∃ out, FireAtTimeStamp coreMIDILayout 3
            ⟨⟨1, 7⟩, [⟨0x90, 0, 60, 100, 0⟩, ⟨0x80, 0, 60, 0, 256⟩]⟩ 5 (fun _ => noErr) = some out ∧
          r.calls = out.calls ∧ r.log = out.log ∧ r.self.mCallbackHelper = out.helper ∧
          r.self.mCallbackHelper.mMIDIMessageList = [] ∧
          ∀ c ∈ r.calls, c.timeStamp = 5) :=
  ⟨by decide,
    C9_render_flushes_on_success (failingBase (-10863)) coreMIDILayout (by decide)
      ⟨⟨⟨1, 7⟩, [⟨0x90, 0, 60, 100, 0⟩, ⟨0x80, 0, 60, 0, 256⟩]⟩, fun _ => 0⟩ 0 5 512
      (fun _ => noErr) 3 (by decide)⟩

/-- C10: `FireAtTimeStamp` terminates for every pending list and any field
values, with or without a registered callback. The first append into a
freshly initialised packet list always succeeds, so an overflow leaves a
strictly shorter pending list for the recursive call, and fuel for one call
per pending record is enough for the flush to complete, after which nothing
is pending; more fuel gives the same outcome. -/
theorem C10_flush_terminates (L : PacketListLayout)
    (hL : L.headerSize + L.packetHeaderSize + 3 ≤ kSizeofMIDIBuffer)
    (h : MIDIOutputCallbackHelper) (ts : AudioTimeStamp) (cb : Nat → OSStatus) :
    (∀ item : MIDIMessageInfoStruct,
      MIDIPacketListAdd L MIDIPacketListInit kSizeofMIDIBuffer item.startFrame
        (midiDataCount item) [midiStatusByte item, item.data1, item.data2] =
          some ⟨[packetOf item]⟩) ∧
    (∀ pktlist rest, packetLoop L MIDIPacketListInit h.mMIDIMessageList = .overflow pktlist rest →
      rest.length < h.mMIDIMessageList.length) ∧
    (∃ out, FireAtTimeStamp L (h.mMIDIMessageList.length + 1) h ts cb = some out ∧
      out.helper.mMIDIMessageList = [] ∧
      ∀ k, FireAtTimeStamp L (h.mMIDIMessageList.length + 1 + k) h ts cb = some out) := by
  refine ⟨?_, ?_, ?_⟩
  · intro item
    have h3 := midiDataCount_le item
    rw [MIDIPacketListAdd_item, if_pos]
    · rfl
    · simp [MIDIPacketListInit, MIDIPacketList.byteSize, MIDIPacket.byteSize, packetOf_length]
      omega
  · intro pktlist rest hloop
    exact (packetLoop_overflow_shorter L hL _ _ _ hloop).1
  · obtain ⟨out, hout, hh, _⟩ := fire_total L hL h ts cb (h.mMIDIMessageList.length + 1) (by omega)
    exact ⟨out, hout, by simp [hh], fun k => fire_mono L ts _ h cb out hout k⟩

/-- C10 at a concrete input: 100 pending records under the CoreMIDI layout. -/
theorem C10_flush_terminates_witness :
    coreMIDILayout.headerSize + coreMIDILayout.packetHeaderSize + 3 ≤ kSizeofMIDIBuffer ∧
    ∃ out, FireAtTimeStamp coreMIDILayout
        ((⟨⟨1, 7⟩, List.replicate 100 ⟨0x90, 0, 60, 100, 0⟩⟩ :
          MIDIOutputCallbackHelper).mMIDIMessageList.length + 1)
        ⟨⟨1, 7⟩, List.replicate 100 ⟨0x90, 0, 60, 100, 0⟩⟩ 0 (fun _ => noErr) = some out ∧
      out.helper.mMIDIMessageList = [] ∧
      ∀ k, FireAtTimeStamp coreMIDILayout
        ((⟨⟨1, 7⟩, List.replicate 100 ⟨0x90, 0, 60, 100, 0⟩⟩ :
          MIDIOutputCallbackHelper).mMIDIMessageList.length + 1 + k)
        ⟨⟨1, 7⟩, List.replicate 100 ⟨0x90, 0, 60, 100, 0⟩⟩ 0 (fun _ => noErr) = some out :=
  ⟨by decide,
    (C10_flush_terminates coreMIDILayout (by decide)
      ⟨⟨1, 7⟩, List.replicate 100 ⟨0x90, 0, 60, 100, 0⟩⟩ 0 (fun _ => noErr)).2.2⟩

end MuteNoteOn
